import Mathlib

/-!
Verification of the bn_heyue streaming candle pipeline.

This file gives a shallow embedding of the core of the repository
(src/database.py, src/anomaly_detector.py, src/ws_collector.py) and proves
properties of that embedding.

Modelling conventions:
* SQLite REAL columns and Python floats are idealised as exact rationals
  (`ℚ`); the square root used by `numpy.std` forces standard deviations and
  z-scores into `ℝ`.
* The `klines` and `anomalies` tables are lists of rows.  Each row carries
  the `id INTEGER PRIMARY KEY AUTOINCREMENT` column, which SQLite assigns
  from a monotone counter, and the `created_at` column, which the Python
  code fills with `int(time.time())`; wall-clock times are passed to the
  embedded operations as explicit arguments.
* `INSERT OR REPLACE` under the `UNIQUE(symbol, open_time)` constraint
  deletes every conflicting row and appends a fresh row with a fresh id.
* `ORDER BY open_time DESC` is modelled by `List.insertionSort` with the
  relation "has larger-or-equal open_time".  Within one symbol the UNIQUE
  constraint makes the sort key unique, so any sort gives the same list.
* The `ai_coins` and `oi_rankings` tables of database.py are elided: no
  claim mentions them, and `cleanup_old_data` treats them exactly like the
  age rule for `anomalies`.
* `maybe_cleanup`, the retention *trigger*, is a separate call performed by
  `insert_kline` after its own transaction commits; the write step and the
  sweep are therefore modelled as separate operations on the store.
-/

/-- One candle record, the payload given to `Database.insert_kline`
(the dict built in ws_collector.py from a feed message or a backfill row). -/
structure Kline where
  open_time : ℤ
  close_time : ℤ
  open_price : ℚ
  high_price : ℚ
  low_price : ℚ
  close_price : ℚ
  volume : ℚ
  quote_volume : ℚ
  trades_count : ℤ
deriving DecidableEq, Inhabited

/-- A stored row of the `klines` table: the autoincrement `id`, the
`symbol` key column, the candle payload and the `created_at` ingestion
time. -/
structure KRow where
  id : ℤ
  symbol : String
  data : Kline
  created_at : ℤ
deriving DecidableEq, Inhabited

/-- The key protected by `UNIQUE(symbol, open_time)`. -/
def rowKey (r : KRow) : String × ℤ :=
  (r.symbol, r.data.open_time)

/-- A stored row of the `anomalies` table: exactly the columns written by
`Database.insert_anomaly` (note that `is_anomaly` is *not* persisted),
plus the autoincrement id. -/
structure ARow where
  id : ℤ
  symbol : String
  timestamp : ℤ
  interval_type : String
  cur_return : ℚ
  cur_abs_return : ℚ
  close_price : ℚ
  cur_volume : ℚ
  cur_volatility : ℚ
  price_zscore : ℝ
  price_percentile : ℚ
  volume_zscore : ℝ
  volatility_zscore : ℝ
  anomaly_score : ℝ
  price_score : ℝ
  volume_score : ℝ
  volatility_score : ℝ
  anomaly_reasons : List String
  quote_volume_24h : ℚ
  created_at : ℤ

/-- The SQLite database of database.py, restricted to the two tables the
claims are about.  `next_kline_id` / `next_anomaly_id` model the
AUTOINCREMENT counters. -/
structure Store where
  klines : List KRow
  anomalies : List ARow
  next_kline_id : ℤ
  next_anomaly_id : ℤ

/-- The well-formedness invariant enforced by `UNIQUE(symbol, open_time)`:
no two stored candle rows share a key.  Every state SQLite can actually
hold satisfies it. -/
def WF (st : Store) : Prop :=
  (st.klines.map rowKey).Nodup

/-- `Database.insert_kline` (database.py lines 333-361), the write step:
`INSERT OR REPLACE INTO klines ...` removes any row conflicting on
`(symbol, open_time)` and appends a fresh row whose `created_at` is the
current wall clock `now` and whose id is the next autoincrement value. -/
def insert_kline (st : Store) (symbol : String) (k : Kline) (now : ℤ) : Store :=
  { st with
    klines :=
      (st.klines.filter
        (fun r => ¬(r.symbol = symbol ∧ r.data.open_time = k.open_time)))
      ++ [⟨st.next_kline_id, symbol, k, now⟩]
    next_kline_id := st.next_kline_id + 1 }

/-- `ORDER BY open_time DESC`: `a` may come before `b` iff `a`'s open
time is at least `b`'s. -/
def byTimeDesc (a b : KRow) : Prop :=
  b.data.open_time ≤ a.data.open_time

instance : DecidableRel byTimeDesc :=
  fun a b => inferInstanceAs (Decidable (b.data.open_time ≤ a.data.open_time))

instance : IsTotal KRow byTimeDesc :=
  ⟨fun a b => le_total b.data.open_time a.data.open_time⟩

instance : IsTrans KRow byTimeDesc :=
  ⟨fun _ _ _ hab hbc => le_trans hbc hab⟩

/-- `Database.get_recent_klines` (database.py lines 363-377):
`SELECT * FROM klines WHERE symbol = ? ORDER BY open_time DESC LIMIT ?`,
then the Python code reverses the page so the oldest row comes first. -/
def get_recent_klines (st : Store) (symbol : String) (limit : ℕ) : List KRow :=
  ((List.insertionSort byTimeDesc
      (st.klines.filter (fun r => r.symbol = symbol))).take limit).reverse

/-- `Database.insert_anomaly` (database.py lines 379-417), the write step:
`INSERT OR REPLACE INTO anomalies ...` keyed by
`UNIQUE(symbol, timestamp, interval_type)`. -/
def insert_anomaly (st : Store) (a : ARow) : Store :=
  { st with
    anomalies :=
      (st.anomalies.filter
        (fun r => ¬(r.symbol = a.symbol ∧ r.timestamp = a.timestamp ∧
                    r.interval_type = a.interval_type)))
      ++ [{ a with id := st.next_anomaly_id }]
    next_anomaly_id := st.next_anomaly_id + 1 }

/-- Survivors of `DELETE FROM klines WHERE created_at < cutoff`. -/
def klinesAfterAge (rows : List KRow) (cutoff : ℤ) : List KRow :=
  rows.filter (fun r => ¬ r.created_at < cutoff)

/-- Survivors of the per-symbol excess delete of database.py lines
186-198: `ROW_NUMBER() OVER (PARTITION BY symbol ORDER BY open_time DESC)`
ranks each row within its symbol, and rows with rank beyond
`max_klines_per_symbol` are deleted.  Under `UNIQUE(symbol, open_time)`
the rank of a row is one plus the number of same-symbol rows with a
strictly larger open time, so a row survives iff that number is below the
cap. -/
def klinesAfterExcess (rows : List KRow) (max_klines_per_symbol : ℤ) : List KRow :=
  rows.filter
    (fun r =>
      ((rows.countP
          (fun q => q.symbol = r.symbol ∧
                    r.data.open_time < q.data.open_time) : ℤ)
        < max_klines_per_symbol))

/-- Survivors of `DELETE FROM anomalies WHERE created_at < cutoff`. -/
def anomaliesAfterAge (rows : List ARow) (cutoff : ℤ) : List ARow :=
  rows.filter (fun r => ¬ r.created_at < cutoff)

/-- `Database.cleanup_old_data` (database.py lines 171-239), successful
path: compute `cutoff = now - max_age_seconds`, delete aged kline rows,
delete per-symbol excess kline rows when the cap is positive, delete aged
anomaly rows, commit, and return the per-table deleted counts (the
`klines_excess` entry exists only when the cap is positive; the elided
`ai_coins` / `oi_rankings` entries are omitted). -/
def cleanup_old_data (st : Store) (now max_age_seconds max_klines_per_symbol : ℤ) :
    Store × List (String × ℕ) :=
  let cutoff := now - max_age_seconds
  let k1 := klinesAfterAge st.klines cutoff
  let k2 := if 0 < max_klines_per_symbol then
              klinesAfterExcess k1 max_klines_per_symbol
            else k1
  let a1 := anomaliesAfterAge st.anomalies cutoff
  let counts :=
    [("klines", st.klines.length - k1.length)]
    ++ (if 0 < max_klines_per_symbol then
          [("klines_excess", k1.length - k2.length)]
        else [])
    ++ [("anomalies", st.anomalies.length - a1.length)]
  ({ st with klines := k2, anomalies := a1 }, counts)

/-- One deletion statement of the sweep, acting inside the open
transaction: it maps the working state to the new working state and the
row count it reports. -/
def SweepStep : Type :=
  Store → Store × (String × ℕ)

/-- The deletion statements `cleanup_old_data` executes, in program
order: aged klines, per-symbol excess klines (only when the cap is
positive), aged anomalies. -/
def sweepSteps (now max_age_seconds max_klines_per_symbol : ℤ) : List SweepStep :=
  let cutoff := now - max_age_seconds
  [fun st =>
    ({ st with klines := klinesAfterAge st.klines cutoff },
     ("klines", st.klines.length - (klinesAfterAge st.klines cutoff).length))]
  ++ (if 0 < max_klines_per_symbol then
        [fun st =>
          ({ st with klines := klinesAfterExcess st.klines max_klines_per_symbol },
           ("klines_excess",
            st.klines.length - (klinesAfterExcess st.klines max_klines_per_symbol).length))]
      else [])
  ++ [fun st =>
        ({ st with anomalies := anomaliesAfterAge st.anomalies cutoff },
         ("anomalies", st.anomalies.length - (anomaliesAfterAge st.anomalies cutoff).length))]

/-- Run the deletion statements on the transaction's working state.
`failAt = some i` means the `i`-th statement raises before taking effect
(the `except` scenario of claim C10); the result is `none`: the
transaction never reaches `conn.commit()`. -/
def runSweepSteps : List SweepStep → Store → Option ℕ → Option (Store × List (String × ℕ))
  | [], st, _ => some (st, [])
  | f :: rest, st, failAt =>
      match failAt with
      | some 0 => none
      | some (n + 1) =>
        let out := f st
        match runSweepSteps rest out.1 (some n) with
        | none => none
        | some (stF, cs) => some (stF, out.2 :: cs)
      | none =>
        let out := f st
        match runSweepSteps rest out.1 none with
        | none => none
        | some (stF, cs) => some (stF, out.2 :: cs)

/-- `Database.cleanup_old_data` including its failure handling: the
deletion statements run inside one transaction; `conn.commit()` happens
only after all of them succeed.  If one raises, the `except` clause
returns the empty count dict and the `finally: conn.close()` closes the
connection with the transaction still open, which rolls it back — the
caller observes the original store. -/
def cleanup_old_data_run (st : Store) (now max_age_seconds max_klines_per_symbol : ℤ)
    (failAt : Option ℕ) : Store × List (String × ℕ) :=
  match runSweepSteps (sweepSteps now max_age_seconds max_klines_per_symbol) st failAt with
  | some (st', counts) => (st', counts)
  | none => (st, [])

/-- `AnomalyDetector.config["PRICE_Z_THRESHOLD"]` = 2.5. -/
def PRICE_Z_THRESHOLD : ℚ := 5/2

/-- `AnomalyDetector.config["PRICE_PERCENTILE"]` = 92.0. -/
def PRICE_PERCENTILE : ℚ := 92

/-- `AnomalyDetector.config["VOLUME_Z_THRESHOLD"]` = 2.0. -/
def VOLUME_Z_THRESHOLD : ℚ := 2

/-- `AnomalyDetector.config["VOLATILITY_Z_THRESHOLD"]` = 2.0. -/
def VOLATILITY_Z_THRESHOLD : ℚ := 2

/-- `AnomalyDetector.config["MIN_ABS_RETURN"]` = 0.005. -/
def MIN_ABS_RETURN : ℚ := 1/200

/-- `AnomalyDetector.config["WEIGHT_PRICE"]` = 0.4. -/
def WEIGHT_PRICE : ℚ := 2/5

/-- `AnomalyDetector.config["WEIGHT_VOLUME"]` = 0.3. -/
def WEIGHT_VOLUME : ℚ := 3/10

/-- `AnomalyDetector.config["WEIGHT_VOLATILITY"]` = 0.3. -/
def WEIGHT_VOLATILITY : ℚ := 3/10

/-- `AnomalyDetector.config["ANOMALY_SCORE_THRESHOLD"]` = 0.5. -/
def ANOMALY_SCORE_THRESHOLD : ℚ := 1/2

/-- `AnomalyDetector.config["MIN_KLINES_REQUIRED"]` = 16. -/
def MIN_KLINES_REQUIRED : ℕ := 16

/-- `numpy.mean` of a list of rationals (0 on the empty list never occurs
on the paths the claims take). -/
def listMean (xs : List ℚ) : ℚ :=
  xs.sum / xs.length

/-- `numpy.std(xs, ddof=0) ** 2`: the population variance. -/
def popVar (xs : List ℚ) : ℚ :=
  ((xs.map (fun x => (x - listMean xs) ^ 2)).sum) / xs.length

/-- `numpy.std(xs, ddof=0)`: the population standard deviation. -/
noncomputable def popStd (xs : List ℚ) : ℝ :=
  Real.sqrt ((popVar xs : ℚ) : ℝ)

/-- The z-score pattern used three times in `analyze_symbol_anomaly`
(anomaly_detector.py lines 120, 129, 138):
`(cur - mean) / std if std > 0 else 0`. -/
noncomputable def zscoreOf (cur : ℚ) (hist : List ℚ) : ℝ :=
  if 0 < popStd hist then (((cur : ℚ) : ℝ) - ((listMean hist : ℚ) : ℝ)) / popStd hist else 0

/-- `np.diff(closes) / closes[:-1]`: the series of one-step relative
returns (anomaly_detector.py line 105). -/
def returnsOf (closes : List ℚ) : List ℚ :=
  List.zipWith (fun prev next => (next - prev) / prev) closes closes.tail

/-- `(highs - lows) / closes * 100` (anomaly_detector.py line 132). -/
def trueRanges (klines : List Kline) : List ℚ :=
  klines.map (fun k => (k.high_price - k.low_price) / k.close_price * 100)

/-- The reason-tag construction of anomaly_detector.py lines 150-174:
append "价格" (price), "成交量" (volume), "波动率" (volatility) for the
conditions that fired; append "综合" (composite) when the composite score
clears its threshold and nothing else fired; fall back to "正常" (normal)
when nothing fired at all. -/
def buildReasons (p v vo c : Prop)
    [Decidable p] [Decidable v] [Decidable vo] [Decidable c] : List String :=
  let r1 := if p then ["价格"] else []
  let r2 := r1 ++ (if v then ["成交量"] else [])
  let r3 := r2 ++ (if vo then ["波动率"] else [])
  let r4 := if c ∧ r3 = [] then r3 ++ ["综合"] else r3
  if r4 = [] then ["正常"] else r4

/-- The dict returned by `AnomalyDetector.analyze_symbol_anomaly`
(anomaly_detector.py lines 179-199).  `anomaly_reasons` is kept as the
list of tags; the Python code serialises it as `"+".join(reasons)`. -/
structure AnomalyResult where
  symbol : String
  timestamp : ℤ
  interval_type : String
  cur_return : ℚ
  cur_abs_return : ℚ
  close_price : ℚ
  cur_volume : ℚ
  cur_volatility : ℚ
  price_zscore : ℝ
  price_percentile : ℚ
  volume_zscore : ℝ
  volatility_zscore : ℝ
  anomaly_score : ℝ
  price_score : ℝ
  volume_score : ℝ
  volatility_score : ℝ
  anomaly_reasons : List String
  quote_volume_24h : ℚ
  is_anomaly : Bool

/-- `AnomalyDetector.analyze_symbol_anomaly` (anomaly_detector.py lines
92-203).  The numeric work is exact-arithmetic; the `try/except` around it
only guards numpy float corner cases and is dropped.  Returns `none` on
the three skip conditions, otherwise the result dict. -/
noncomputable def analyze_symbol_anomaly (symbol : String) (klines : List Kline)
    (quote_volume_24h : ℚ) : Option AnomalyResult :=
  if klines.length < MIN_KLINES_REQUIRED then none
  else
    let closes := klines.map (fun k => k.close_price)
    let returns := returnsOf closes
    if returns.length < 5 then none
    else
      let cur_ret := returns.getLastD 0
      let cur_abs_ret := |cur_ret|
      if cur_abs_ret < MIN_ABS_RETURN then none
      else
        let hist_abs := (returns.dropLast).map (fun x => |x|)
        let price_zscore := zscoreOf cur_abs_ret hist_abs
        let price_percentile :=
          ((hist_abs.countP (fun x => x < cur_abs_ret) : ℚ) / (hist_abs.length : ℚ)) * 100
        let volumes := klines.map (fun k => k.quote_volume)
        let hist_volumes := volumes.dropLast
        let cur_volume := volumes.getLastD 0
        let volume_zscore := zscoreOf cur_volume hist_volumes
        let tr := trueRanges klines
        let hist_volatility := tr.dropLast
        let cur_volatility := tr.getLastD 0
        let volatility_zscore := zscoreOf cur_volatility hist_volatility
        let price_score : ℝ :=
          max (price_zscore - ((PRICE_Z_THRESHOLD : ℚ) : ℝ)) 0
          + (((max (price_percentile - PRICE_PERCENTILE) 0) / 10 : ℚ) : ℝ)
        let volume_score : ℝ := max (|volume_zscore| - ((VOLUME_Z_THRESHOLD : ℚ) : ℝ)) 0
        let volatility_score : ℝ :=
          max (volatility_zscore - ((VOLATILITY_Z_THRESHOLD : ℚ) : ℝ)) 0
        let anomaly_score : ℝ :=
          ((WEIGHT_PRICE : ℚ) : ℝ) * price_score
          + ((WEIGHT_VOLUME : ℚ) : ℝ) * volume_score
          + ((WEIGHT_VOLATILITY : ℚ) : ℝ) * volatility_score
        let priceHit : Prop :=
          ((PRICE_Z_THRESHOLD : ℚ) : ℝ) ≤ price_zscore ∨ PRICE_PERCENTILE ≤ price_percentile
        let volumeHit : Prop := ((VOLUME_Z_THRESHOLD : ℚ) : ℝ) ≤ |volume_zscore|
        let volatilityHit : Prop := ((VOLATILITY_Z_THRESHOLD : ℚ) : ℝ) ≤ volatility_zscore
        let compositeHit : Prop := ((ANOMALY_SCORE_THRESHOLD : ℚ) : ℝ) ≤ anomaly_score
        some
          { symbol := symbol
            timestamp := Int.fdiv (klines.getLastD default).open_time 1000
            interval_type := "15m"
            cur_return := cur_ret
            cur_abs_return := cur_abs_ret
            close_price := closes.getLastD 0
            cur_volume := cur_volume
            cur_volatility := cur_volatility
            price_zscore := price_zscore
            price_percentile := price_percentile
            volume_zscore := volume_zscore
            volatility_zscore := volatility_zscore
            anomaly_score := anomaly_score
            price_score := price_score
            volume_score := volume_score
            volatility_score := volatility_score
            anomaly_reasons := buildReasons priceHit volumeHit volatilityHit compositeHit
            quote_volume_24h := quote_volume_24h
            is_anomaly := decide (priceHit ∨ volumeHit ∨ volatilityHit ∨ compositeHit) }

/-- `SELECT DISTINCT symbol FROM klines` (anomaly_detector.py line 215). -/
def distinctSymbols (st : Store) : List String :=
  (st.klines.map (fun r => r.symbol)).dedup

/-- The rows one run of `AnomalyDetector.detect_anomalies`
(anomaly_detector.py lines 205-249) produces: for each stored symbol,
fetch its most recent 150 candles, skip it when fewer than
`MIN_KLINES_REQUIRED` are stored, otherwise score it; each produced
result is written to the anomalies table.  `volumes_24h` is the
(possibly empty) 24h notional map fetched up front. -/
noncomputable def detect_run_results (st : Store) (volumes_24h : String → ℚ) :
    List AnomalyResult :=
  (distinctSymbols st).filterMap (fun symbol =>
    let klines := (get_recent_klines st symbol 150).map (fun r => r.data)
    if klines.length < MIN_KLINES_REQUIRED then none
    else analyze_symbol_anomaly symbol klines (volumes_24h symbol))

/-- One entry of the `/fapi/v1/exchangeInfo` `symbols` array, restricted
to the fields ws_collector.py reads. -/
structure ExSymbol where
  symbol : String
  contractType : String
  quoteAsset : String
  status : String
deriving DecidableEq

/-- One entry of the `/fapi/v1/ticker/24hr` array, restricted to the
fields ws_collector.py reads. -/
structure Ticker24 where
  symbol : String
  quoteVolume : ℚ
deriving DecidableEq

/-- `BinanceWSCollector.config["MIN_VOL_24H"]` = 5000.0. -/
def MIN_VOL_24H : ℚ := 5000

/-- `BinanceWSCollector.config["TOP_N_SYMBOLS"]` = 150. -/
def TOP_N_SYMBOLS : ℕ := 150

/-- `BinanceWSCollector.max_reconnects` = 10. -/
def max_reconnects : ℕ := 10

/-- Descending order on 24h quote volume, the sort of ws_collector.py
line 136 (`sorted(..., key=lambda x: x[1], reverse=True)`). -/
def byVolumeDesc (a b : Ticker24) : Prop :=
  b.quoteVolume ≤ a.quoteVolume

instance : DecidableRel byVolumeDesc :=
  fun a b => inferInstanceAs (Decidable (b.quoteVolume ≤ a.quoteVolume))

/-- `BinanceWSCollector.get_active_symbols` (ws_collector.py lines
103-140).  The two upstream fetches are passed in as `Except` values:
`raise_for_status()` turns an HTTP failure into an exception, and the
function has no handler, so a failed fetch propagates as `Except.error`
to the caller.  On success: keep tradable USDT perpetuals, keep tickers
of those symbols with 24h quote volume at least `MIN_VOL_24H`, order by
volume descending and return the first `TOP_N_SYMBOLS` symbol names. -/
def get_active_symbols (exchangeInfoFetch : Except String (List ExSymbol))
    (tickerFetch : Except String (List Ticker24)) : Except String (List String) := do
  let exchangeSymbols ← exchangeInfoFetch
  let perpetual_symbols :=
    (exchangeSymbols.filter
      (fun s => s.contractType = "PERPETUAL" ∧ s.quoteAsset = "USDT" ∧
                s.status = "TRADING")).map (fun s => s.symbol)
  let ticker_data ← tickerFetch
  let symbol_volumes :=
    ticker_data.filter
      (fun t => t.symbol ∈ perpetual_symbols ∧ MIN_VOL_24H ≤ t.quoteVolume)
  let sorted_symbols := List.insertionSort byVolumeDesc symbol_volumes
  return (sorted_symbols.take TOP_N_SYMBOLS).map (fun t => t.symbol)

/-- The observable state of `BinanceWSCollector`.  `selector_calls`
counts invocations of `get_active_symbols` and `connect_attempts` counts
websocket subscriptions opened (`run_forever`), so that "the engine
re-derived the universe / reconnected" is visible in the state. -/
structure CollState where
  running : Bool
  reconnect_count : ℕ
  symbols : List String
  selector_calls : ℕ
  connect_attempts : ℕ
deriving DecidableEq

/-- `BinanceWSCollector.start` (ws_collector.py lines 204-239) as a state
transformer.  The guard `if self.running: return` comes first.  Inside
the `try`: derive the universe (one selector call); an exception from the
fetches lands in the `except` clause, which logs and sets
`running = False` — nothing propagates to the caller.  An empty universe
prints and returns with `running` still `True`.  Otherwise the symbol
list is stored, history is backfilled, and a websocket subscription is
opened. -/
def start_step (exchangeInfoFetch : Except String (List ExSymbol))
    (tickerFetch : Except String (List Ticker24)) (s : CollState) : CollState :=
  if s.running then s
  else
    let s1 := { s with running := true, selector_calls := s.selector_calls + 1 }
    match get_active_symbols exchangeInfoFetch tickerFetch with
    | Except.error _ => { s1 with running := false }
    | Except.ok syms =>
      if syms.isEmpty then s1
      else { s1 with symbols := syms, connect_attempts := s1.connect_attempts + 1 }

/-- `BinanceWSCollector.on_close` (ws_collector.py lines 190-197): on a
connection-close event, when the collector is running and fewer than
`max_reconnects` reconnects have happened, sleep five seconds, increment
the reconnect counter, and call `self.start()` again (which begins with
the `if self.running: return` guard). -/
def on_close_step (exchangeInfoFetch : Except String (List ExSymbol))
    (tickerFetch : Except String (List Ticker24)) (s : CollState) : CollState :=
  if s.running = true ∧ s.reconnect_count < max_reconnects then
    start_step exchangeInfoFetch tickerFetch
      { s with reconnect_count := s.reconnect_count + 1 }
  else s

/-! ## Helper lemmas about the store -/

/-- Rows returned by `get_recent_klines` are stored rows of the queried
symbol. -/
theorem mem_get_recent_klines {st : Store} {sym : String} {limit : ℕ} {r : KRow}
    (h : r ∈ get_recent_klines st sym limit) : r ∈ st.klines ∧ r.symbol = sym := by
  unfold get_recent_klines at h
  rw [List.mem_reverse] at h
  have h2 := List.mem_of_mem_take h
  have h3 := (List.perm_insertionSort byTimeDesc
    (st.klines.filter (fun r => r.symbol = sym))).mem_iff.mp h2
  simpa using h3

/-- After an insert, the rows with the inserted key are exactly the fresh
row. -/
theorem filter_key_insert_kline (st : Store) (sym : String) (k : Kline) (t : ℤ) :
    (insert_kline st sym k t).klines.filter
      (fun r => r.symbol = sym ∧ r.data.open_time = k.open_time)
    = [⟨st.next_kline_id, sym, k, t⟩] := by
  unfold insert_kline
  rw [List.filter_append, List.filter_filter]
  have h1 : ∀ r : KRow,
      (decide (r.symbol = sym ∧ r.data.open_time = k.open_time)
        && decide (¬(r.symbol = sym ∧ r.data.open_time = k.open_time))) = false := by
    intro r
    by_cases h : r.symbol = sym ∧ r.data.open_time = k.open_time <;> simp [h]
  simp [h1]

/-- A sequence of `insert_kline` calls for one symbol, one after the
other; each list entry is a candle together with the wall-clock second at
which it is written. -/
def applyWrites (s : Store) (sym : String) (ws : List (Kline × ℤ)) : Store :=
  ws.foldl (fun st w => insert_kline st sym w.1 w.2) s

/-- C1.  Replace semantics (last-write-wins): after any non-empty
sequence of writes sharing one `(symbol, open_time)` key, the store holds
at most one row for that key — namely the candle of the last write — and
any row `get_recent_klines` returns for that key carries the candle and
ingestion time of the most recent write. -/
theorem replace_semantics_last_write_wins
    (s : Store) (sym : String) (ot : ℤ) (ws : List (Kline × ℤ))
    (hne : ws ≠ []) (hot : ∀ w ∈ ws, (w.1).open_time = ot) :
    ((applyWrites s sym ws).klines.filter
        (fun r => r.symbol = sym ∧ r.data.open_time = ot)).length ≤ 1
    ∧ ((applyWrites s sym ws).klines.filter
        (fun r => r.symbol = sym ∧ r.data.open_time = ot)).map
        (fun r => (r.symbol, r.data, r.created_at))
      = [(sym, (ws.getLast hne).1, (ws.getLast hne).2)]
    ∧ ∀ limit : ℕ, ∀ r ∈ get_recent_klines (applyWrites s sym ws) sym limit,
        r.data.open_time = ot →
        r.data = (ws.getLast hne).1 ∧ r.created_at = (ws.getLast hne).2 := by
  have hsplit : ws.dropLast ++ [ws.getLast hne] = ws := List.dropLast_append_getLast hne
  have hlast_ot : (ws.getLast hne).1.open_time = ot :=
    hot _ (List.getLast_mem hne)
  have hfold : applyWrites s sym ws
      = insert_kline (applyWrites s sym ws.dropLast) sym
          (ws.getLast hne).1 (ws.getLast hne).2 := by
    unfold applyWrites
    conv_lhs => rw [← hsplit]
    rw [List.foldl_append]
    rfl
  have hkey : ((applyWrites s sym ws).klines.filter
      (fun r => r.symbol = sym ∧ r.data.open_time = ot))
      = [⟨(applyWrites s sym ws.dropLast).next_kline_id, sym,
          (ws.getLast hne).1, (ws.getLast hne).2⟩] := by
    rw [hfold, ← hlast_ot]
    exact filter_key_insert_kline _ _ _ _
  refine ⟨?_, ?_, ?_⟩
  · rw [hkey]; simp
  · rw [hkey]; simp
  · intro limit r hr hrot
    obtain ⟨hmem, hsym⟩ := mem_get_recent_klines hr
    have hrk : r ∈ (applyWrites s sym ws).klines.filter
        (fun q => q.symbol = sym ∧ q.data.open_time = ot) := by
      rw [List.mem_filter]
      exact ⟨hmem, by simp [hsym, hrot]⟩
    rw [hkey, List.mem_singleton] at hrk
    subst hrk
    exact ⟨rfl, rfl⟩

/-- A synthetic candle: bucket start `ot`, flat OHLC at price `c`. -/
def sampleKline (ot : ℤ) (c : ℚ) : Kline :=
  ⟨ot, ot + 899999, c, c, c, c, 1, 1, 0⟩

/-- A freshly initialised database: both tables empty, autoincrement
counters at 1. -/
def emptyStore : Store :=
  ⟨[], [], 1, 1⟩

/-- Witness for C1: two writes for key `("BTCUSDT", 0)`, the second with
a different close price and a later wall clock; the surviving row is the
second version. -/
theorem replace_semantics_last_write_wins_witness :
    ((applyWrites emptyStore "BTCUSDT"
        [(sampleKline 0 100, (10:ℤ)), (sampleKline 0 105, 20)]).klines.filter
        (fun r => r.symbol = "BTCUSDT" ∧ r.data.open_time = 0)).map
        (fun r => (r.symbol, r.data, r.created_at))
      = [("BTCUSDT", sampleKline 0 105, 20)] := by
  have h := (replace_semantics_last_write_wins emptyStore "BTCUSDT" 0
    [(sampleKline 0 100, (10:ℤ)), (sampleKline 0 105, 20)]
    (by decide) (by decide)).2.1
  simpa using h

/-- Counterexample for C4 as stated: writing the identical candle twice
(even within the same wall-clock second) does change the raw
`get_recent_klines` output, because the replaced row receives a fresh
autoincrement `id` and `SELECT *` returns that column. -/
theorem insert_twice_changes_raw_output :
    get_recent_klines
        (insert_kline (insert_kline emptyStore "BTCUSDT" (sampleKline 0 100) 50)
          "BTCUSDT" (sampleKline 0 100) 50) "BTCUSDT" 150
    ≠ get_recent_klines (insert_kline emptyStore "BTCUSDT" (sampleKline 0 100) 50)
        "BTCUSDT" 150 := by
  decide

/-- The user-visible projection of a stored candle row: everything except
the autoincrement `id` and the ingestion clock `created_at`. -/
def pubRow (r : KRow) : String × Kline :=
  (r.symbol, r.data)

/-- `List.orderedInsert` for `byTimeDesc` only inspects `pubRow`-visible
data, so two insertions agreeing under `pubRow` stay in lockstep. -/
theorem map_pubRow_orderedInsert_congr {a b : KRow} :
    ∀ {L1 L2 : List KRow}, pubRow a = pubRow b → L1.map pubRow = L2.map pubRow →
    (List.orderedInsert byTimeDesc a L1).map pubRow
      = (List.orderedInsert byTimeDesc b L2).map pubRow := by
  intro L1
  induction L1 with
  | nil =>
    intro L2 hab h
    cases L2 with
    | nil => simpa [List.orderedInsert] using hab
    | cons y ys => simp at h
  | cons x xs ih =>
    intro L2 hab h
    cases L2 with
    | nil => simp at h
    | cons y ys =>
      simp only [List.map_cons, List.cons.injEq] at h
      obtain ⟨hxy, hrest⟩ := h
      have hdx : x.data = y.data := congrArg Prod.snd hxy
      have hda : a.data = b.data := congrArg Prod.snd hab
      unfold List.orderedInsert
      by_cases hc : byTimeDesc a x
      · have hc' : byTimeDesc b y := by
          unfold byTimeDesc at hc ⊢
          rw [← hdx, ← hda]
          exact hc
        rw [if_pos hc, if_pos hc']
        simp only [List.map_cons, List.cons.injEq]
        exact ⟨hab, hxy, hrest⟩
      · have hc' : ¬ byTimeDesc b y := by
          unfold byTimeDesc at hc ⊢
          rw [← hdx, ← hda]
          exact hc
        rw [if_neg hc, if_neg hc']
        simp only [List.map_cons, List.cons.injEq]
        exact ⟨hxy, ih hab hrest⟩

/-- `List.insertionSort` for `byTimeDesc` is determined by the
`pubRow`-projection of its input. -/
theorem map_pubRow_insertionSort_congr :
    ∀ {L1 L2 : List KRow}, L1.map pubRow = L2.map pubRow →
    (List.insertionSort byTimeDesc L1).map pubRow
      = (List.insertionSort byTimeDesc L2).map pubRow := by
  intro L1
  induction L1 with
  | nil =>
    intro L2 h
    cases L2 with
    | nil => rfl
    | cons y ys => simp at h
  | cons x xs ih =>
    intro L2 h
    cases L2 with
    | nil => simp at h
    | cons y ys =>
      simp only [List.map_cons, List.cons.injEq] at h
      obtain ⟨hxy, hrest⟩ := h
      simp only [List.insertionSort]
      exact map_pubRow_orderedInsert_congr hxy (ih hrest)

/-- Filtering twice with one predicate equals filtering once. -/
theorem filter_self_idem (l : List KRow) (p : KRow → Bool) :
    (l.filter p).filter p = l.filter p := by
  rw [List.filter_filter]
  exact List.filter_congr (fun a _ => Bool.and_self (p a))

/-- C4, amended.  Writing the identical candle twice in a row leaves the
same stored row for its key *up to the autoincrement id and the refreshed
`created_at` column* — the candle payload is unchanged, the key still has
exactly one row — and `get_recent_klines` output is unchanged once those
two machine-generated columns are projected away. -/
theorem upsert_idempotent_up_to_metadata (s : Store) (sym : String) (k : Kline)
    (t1 t2 : ℤ) :
    (∀ (sym' : String) (limit : ℕ),
      (get_recent_klines (insert_kline (insert_kline s sym k t1) sym k t2)
          sym' limit).map pubRow
        = (get_recent_klines (insert_kline s sym k t1) sym' limit).map pubRow)
    ∧ ((insert_kline (insert_kline s sym k t1) sym k t2).klines.filter
        (fun r => r.symbol = sym ∧ r.data.open_time = k.open_time)).map pubRow
      = [(sym, k)]
    ∧ ((insert_kline s sym k t1).klines.filter
        (fun r => r.symbol = sym ∧ r.data.open_time = k.open_time)).map pubRow
      = [(sym, k)] := by
  have hrow1 : (List.filter
      (fun r => decide ¬(r.symbol = sym ∧ r.data.open_time = k.open_time))
      [(⟨s.next_kline_id, sym, k, t1⟩ : KRow)]) = [] := by
    simp
  have hA : (insert_kline (insert_kline s sym k t1) sym k t2).klines
      = (s.klines.filter
          (fun r => ¬(r.symbol = sym ∧ r.data.open_time = k.open_time)))
        ++ [⟨s.next_kline_id + 1, sym, k, t2⟩] := by
    show (((s.klines.filter _) ++ [_]).filter _) ++ _ = _
    rw [List.filter_append, filter_self_idem, hrow1, List.append_nil]
    rfl
  have hB : (insert_kline s sym k t1).klines
      = (s.klines.filter
          (fun r => ¬(r.symbol = sym ∧ r.data.open_time = k.open_time)))
        ++ [⟨s.next_kline_id, sym, k, t1⟩] := rfl
  refine ⟨?_, ?_, ?_⟩
  · intro sym' limit
    unfold get_recent_klines
    rw [List.map_reverse, List.map_reverse, List.map_take, List.map_take]
    have hfilters :
        ((insert_kline (insert_kline s sym k t1) sym k t2).klines.filter
          (fun r => r.symbol = sym')).map pubRow
        = ((insert_kline s sym k t1).klines.filter
          (fun r => r.symbol = sym')).map pubRow := by
      rw [hA, hB, List.filter_append, List.filter_append,
        List.map_append, List.map_append]
      by_cases hs : sym = sym' <;> simp [hs, pubRow]
    rw [map_pubRow_insertionSort_congr hfilters]
  · rw [hA]
    rw [List.filter_append]
    have h0 : (s.klines.filter
        (fun r => ¬(r.symbol = sym ∧ r.data.open_time = k.open_time))).filter
        (fun r => r.symbol = sym ∧ r.data.open_time = k.open_time) = [] := by
      rw [List.filter_filter]
      refine List.filter_eq_nil_iff.mpr ?_
      intro a _
      by_cases h : a.symbol = sym ∧ a.data.open_time = k.open_time <;> simp [h]
    rw [h0]
    simp [pubRow]
  · rw [hB]
    rw [List.filter_append]
    have h0 : (s.klines.filter
        (fun r => ¬(r.symbol = sym ∧ r.data.open_time = k.open_time))).filter
        (fun r => r.symbol = sym ∧ r.data.open_time = k.open_time) = [] := by
      rw [List.filter_filter]
      refine List.filter_eq_nil_iff.mpr ?_
      intro a _
      by_cases h : a.symbol = sym ∧ a.data.open_time = k.open_time <;> simp [h]
    rw [h0]
    simp [pubRow]

/-- The page `get_recent_klines` returns has `min limit count` rows,
where `count` is the number of stored rows of the symbol. -/
theorem length_get_recent_klines (st : Store) (sym : String) (limit : ℕ) :
    (get_recent_klines st sym limit).length
      = min limit (st.klines.filter (fun r => r.symbol = sym)).length := by
  unfold get_recent_klines
  rw [List.length_reverse, List.length_take,
    (List.perm_insertionSort byTimeDesc _).length_eq]

/-- Under the UNIQUE constraint, the open times of one symbol's stored
rows are pairwise distinct. -/
theorem nodup_times_of_WF {st : Store} (h : WF st) (sym : String) :
    ((st.klines.filter (fun r => r.symbol = sym)).map
      (fun r => r.data.open_time)).Nodup := by
  have hsub : (st.klines.filter (fun r => r.symbol = sym)).Sublist st.klines :=
    List.filter_sublist _
  have hkeys : ((st.klines.filter (fun r => r.symbol = sym)).map rowKey).Nodup :=
    (hsub.map rowKey).nodup h
  have hfst : ∀ p ∈ (st.klines.filter (fun r => r.symbol = sym)).map rowKey,
      p.1 = sym := by
    intro p hp
    rw [List.mem_map] at hp
    obtain ⟨r, hr, rfl⟩ := hp
    rw [List.mem_filter] at hr
    simpa [rowKey] using of_decide_eq_true hr.2
  have hmap : ((st.klines.filter (fun r => r.symbol = sym)).map rowKey).map Prod.snd
      = (st.klines.filter (fun r => r.symbol = sym)).map
          (fun r => r.data.open_time) := by
    rw [List.map_map]
    rfl
  rw [← hmap]
  refine List.Nodup.map_on ?_ hkeys
  intro x hx y hy hxy
  exact Prod.ext ((hfst x hx).trans (hfst y hy).symm) hxy

/-- The sorted page of `get_recent_klines`, before `take` and `reverse`,
is pairwise strictly descending in open time for a well-formed store. -/
theorem pairwise_strict_sorted_page {st : Store} (h : WF st) (sym : String) :
    (List.insertionSort byTimeDesc
        (st.klines.filter (fun r => r.symbol = sym))).Pairwise
      (fun a b => b.data.open_time < a.data.open_time) := by
  have hsorted : (List.insertionSort byTimeDesc
      (st.klines.filter (fun r => r.symbol = sym))).Pairwise byTimeDesc :=
    List.sorted_insertionSort byTimeDesc _
  have hnd : ((List.insertionSort byTimeDesc
      (st.klines.filter (fun r => r.symbol = sym))).map
      (fun r => r.data.open_time)).Nodup :=
    (((List.perm_insertionSort byTimeDesc _).map
        (fun r => r.data.open_time)).nodup_iff).mpr (nodup_times_of_WF h sym)
  have hne : (List.insertionSort byTimeDesc
      (st.klines.filter (fun r => r.symbol = sym))).Pairwise
      (fun a b => a.data.open_time ≠ b.data.open_time) :=
    List.pairwise_map.mp hnd
  exact (hsorted.and hne).imp
    (fun hab => lt_of_le_of_ne hab.1 (Ne.symm hab.2))

/-- C5.  For a well-formed store (the UNIQUE(symbol, open_time)
constraint), `get_recent_klines symbol limit` returns at most `limit`
rows — exactly `min limit count` where `count` is the symbol's stored row
count, so fewer when less history exists — strictly ascending in
`open_time`, with no duplicate keys; every returned row is a stored row
of the symbol, and the returned rows are the most recent ones: every
stored row of the symbol left out is strictly older than everything
returned. -/
theorem recent_klines_page_shape (st : Store) (sym : String) (limit : ℕ)
    (h : WF st) :
    (get_recent_klines st sym limit).length ≤ limit
    ∧ (get_recent_klines st sym limit).length
        = min limit (st.klines.filter (fun r => r.symbol = sym)).length
    ∧ ((get_recent_klines st sym limit).map (fun r => r.data.open_time)).Sorted (· < ·)
    ∧ ((get_recent_klines st sym limit).map rowKey).Nodup
    ∧ (∀ r ∈ get_recent_klines st sym limit, r ∈ st.klines ∧ r.symbol = sym)
    ∧ (∀ q ∈ st.klines, q.symbol = sym → q ∉ get_recent_klines st sym limit →
        ∀ r ∈ get_recent_klines st sym limit,
          q.data.open_time < r.data.open_time) := by
  have hpw := pairwise_strict_sorted_page h sym
  have hsortedOut : ((get_recent_klines st sym limit).map
      (fun r => r.data.open_time)).Sorted (· < ·) := by
    unfold get_recent_klines
    rw [List.map_reverse, List.map_take]
    refine List.pairwise_reverse.mpr ?_
    refine List.Pairwise.sublist (List.take_sublist _ _) ?_
    exact List.pairwise_map.mpr hpw
  refine ⟨?_, ?_, hsortedOut, ?_, ?_, ?_⟩
  · rw [length_get_recent_klines]
    exact min_le_left _ _
  · exact length_get_recent_klines st sym limit
  · have hndTimes : ((get_recent_klines st sym limit).map
        (fun r => r.data.open_time)).Nodup :=
      hsortedOut.imp (fun hab => ne_of_lt hab)
    have hmap : ((get_recent_klines st sym limit).map rowKey).map Prod.snd
        = (get_recent_klines st sym limit).map (fun r => r.data.open_time) := by
      rw [List.map_map]
      rfl
    refine List.Nodup.of_map Prod.snd ?_
    rw [hmap]
    exact hndTimes
  · exact fun r hr => mem_get_recent_klines hr
  · intro q hq hqsym hqnot r hr
    have hql : q ∈ st.klines.filter (fun x => x.symbol = sym) :=
      List.mem_filter.mpr ⟨hq, decide_eq_true hqsym⟩
    have hqt : q ∈ List.insertionSort byTimeDesc
        (st.klines.filter (fun x => x.symbol = sym)) :=
      (List.perm_insertionSort byTimeDesc _).mem_iff.mpr hql
    have hqnottake : q ∉ (List.insertionSort byTimeDesc
        (st.klines.filter (fun x => x.symbol = sym))).take limit := by
      intro hcontra
      exact hqnot (List.mem_reverse.mpr hcontra)
    have hqdrop : q ∈ (List.insertionSort byTimeDesc
        (st.klines.filter (fun x => x.symbol = sym))).drop limit := by
      have := (List.take_append_drop limit (List.insertionSort byTimeDesc
        (st.klines.filter (fun x => x.symbol = sym)))) ▸ hqt
      rcases List.mem_append.mp this with h1 | h2
      · exact absurd h1 hqnottake
      · exact h2
    have hrtake : r ∈ (List.insertionSort byTimeDesc
        (st.klines.filter (fun x => x.symbol = sym))).take limit :=
      List.mem_reverse.mp hr
    have hsplit := hpw
    rw [← List.take_append_drop limit (List.insertionSort byTimeDesc
      (st.klines.filter (fun x => x.symbol = sym)))] at hsplit
    exact (List.pairwise_append.mp hsplit).2.2 r hrtake q hqdrop

/-- A small well-formed store: two BTCUSDT candles and one ETHUSDT
candle. -/
def wfStore : Store :=
  ⟨[⟨1, "BTCUSDT", sampleKline 0 100, 10⟩,
    ⟨2, "BTCUSDT", sampleKline 900000 101, 11⟩,
    ⟨3, "ETHUSDT", sampleKline 0 9, 12⟩], [], 4, 1⟩

/-- Witness for C5 at a concrete store: with three stored rows (two for
the queried symbol) and limit 1, the page has `min 1 2 = 1` row and is
strictly sorted. -/
theorem recent_klines_page_shape_witness :
    (get_recent_klines wfStore "BTCUSDT" 1).length
      = min 1 ((wfStore.klines.filter (fun r => r.symbol = "BTCUSDT")).length)
    ∧ ((get_recent_klines wfStore "BTCUSDT" 1).map
        (fun r => r.data.open_time)).Sorted (· < ·) :=
  ⟨(recent_klines_page_shape wfStore "BTCUSDT" 1 (by unfold WF; decide)).2.1,
   (recent_klines_page_shape wfStore "BTCUSDT" 1 (by unfold WF; decide)).2.2.1⟩

/-- Counterexample for C7 as stated: with `maxAge = 0` the sweep deletes
rows with `created_at < now` only, so a row ingested in the very second
of the sweep survives — the claim's "deletes every row ... for every
store state" fails. -/
theorem retention_zero_age_keeps_same_second_row :
    (cleanup_old_data
        ⟨[⟨1, "BTCUSDT", sampleKline 0 100, 100⟩], [], 2, 1⟩ 100 0 0).1.klines
      ≠ [] := by
  decide

/-- A member failing `p` but satisfying `q` makes `countP p` strictly
smaller than `countP q` when `p` implies `q`. -/
theorem countP_lt_of_mem {α : Type} {l : List α} {p q : α → Bool} {r : α}
    (hr : r ∈ l) (hpr : p r = false) (hqr : q r = true)
    (himp : ∀ x, p x = true → q x = true) :
    l.countP p < l.countP q := by
  induction l with
  | nil => cases hr
  | cons x xs ih =>
    rw [List.countP_cons, List.countP_cons]
    rcases List.mem_cons.mp hr with rfl | hxs
    · rw [hpr, hqr]
      simp only [if_pos, if_neg, Bool.false_eq_true, not_false_eq_true]
      have hle : xs.countP p ≤ xs.countP q :=
        List.countP_mono_left (fun a _ => himp a)
      omega
    · have hlt := ih hxs
      cases hpx : p x
      · cases hqx : q x <;> simp <;> omega
      · rw [himp x hpx]
        simp
        omega

/-- C7, amended.  With `maxAge = 0` the sweep deletes exactly the rows
ingested strictly before the sweep's wall clock, so it empties both
tables whenever every stored row was ingested in an earlier second
(which is how the claim's "all rows" universally holds in practice); the
counterexample above shows the strict inequality is forced.  With
unbounded age (a cutoff at or below every row's ingestion time) and the
per-symbol cap not exceeded (or disabled), the sweep deletes nothing. -/
theorem retention_sweep_extremes (st : Store) (now max_age maxPer : ℤ) :
    ((∀ r ∈ st.klines, r.created_at < now) →
     (∀ a ∈ st.anomalies, a.created_at < now) →
     (cleanup_old_data st now 0 maxPer).1.klines = []
     ∧ (cleanup_old_data st now 0 maxPer).1.anomalies = [])
    ∧ ((∀ r ∈ st.klines, now - max_age ≤ r.created_at) →
       (∀ a ∈ st.anomalies, now - max_age ≤ a.created_at) →
       (∀ r ∈ st.klines,
          ((st.klines.countP (fun q => q.symbol = r.symbol)) : ℤ) ≤ maxPer
          ∨ maxPer ≤ 0) →
       (cleanup_old_data st now max_age maxPer).1 = st) := by
  constructor
  · intro h1 h2
    have hk1 : klinesAfterAge st.klines (now - 0) = [] := by
      unfold klinesAfterAge
      rw [List.filter_eq_nil_iff]
      intro a ha
      simp [sub_zero, h1 a ha]
    have ha1 : anomaliesAfterAge st.anomalies (now - 0) = [] := by
      unfold anomaliesAfterAge
      rw [List.filter_eq_nil_iff]
      intro a ha
      simp [sub_zero, h2 a ha]
    unfold cleanup_old_data
    dsimp only
    rw [hk1, ha1]
    by_cases h0 : 0 < maxPer <;> simp [h0, klinesAfterExcess]
  · intro h1 h2 h3
    have hk1 : klinesAfterAge st.klines (now - max_age) = st.klines := by
      unfold klinesAfterAge
      rw [List.filter_eq_self]
      intro a ha
      simpa using not_lt.mpr (h1 a ha)
    have ha1 : anomaliesAfterAge st.anomalies (now - max_age) = st.anomalies := by
      unfold anomaliesAfterAge
      rw [List.filter_eq_self]
      intro a ha
      simpa using not_lt.mpr (h2 a ha)
    have hk2 : 0 < maxPer → klinesAfterExcess st.klines maxPer = st.klines := by
      intro h0
      unfold klinesAfterExcess
      rw [List.filter_eq_self]
      intro r hr
      have hcount : st.klines.countP
          (fun q => q.symbol = r.symbol ∧ r.data.open_time < q.data.open_time)
          < st.klines.countP (fun q => q.symbol = r.symbol) := by
        refine countP_lt_of_mem hr ?_ ?_ ?_
        · simp
        · simp
        · intro x hx
          simp only [decide_eq_true_eq] at hx ⊢
          exact hx.1
      have hcap : ((st.klines.countP (fun q => q.symbol = r.symbol)) : ℤ) ≤ maxPer :=
        (h3 r hr).resolve_right (by omega)
      simp only [decide_eq_true_eq]
      omega
    unfold cleanup_old_data
    dsimp only
    rw [hk1, ha1]
    by_cases h0 : 0 < maxPer
    · rw [if_pos h0, hk2 h0]
    · rw [if_neg h0]

/-- A stored anomaly row (all scores zero, tag "正常"), ingested at
second 20. -/
def sampleARow : ARow :=
  ⟨1, "BTCUSDT", 0, "15m", 0, 0, 100, 0, 0, 0, 0, 0, 0, 0, 0, 0, 0,
   ["正常"], 0, 20⟩

/-- A store holding one candle row (ingested at second 10) and one
anomaly row (ingested at second 20). -/
def agedStore : Store :=
  ⟨[⟨1, "BTCUSDT", sampleKline 0 100, 10⟩], [sampleARow], 2, 2⟩

/-- Witness for C7: on `agedStore`, whose rows all predate second 100, a
sweep at `now = 100` with `maxAge = 0` empties both tables, and a sweep
with `maxAge = 1000` (cutoff −900, below every ingestion time) and
per-symbol cap 5 leaves the store untouched. -/
theorem retention_sweep_extremes_witness :
    ((cleanup_old_data agedStore 100 0 5).1.klines = []
      ∧ (cleanup_old_data agedStore 100 0 5).1.anomalies = [])
    ∧ (cleanup_old_data agedStore 100 1000 5).1 = agedStore :=
  ⟨(retention_sweep_extremes agedStore 100 1000 5).1
      (by decide) (by decide),
   (retention_sweep_extremes agedStore 100 1000 5).2
      (by decide) (by decide) (by decide)⟩

/-- If the `i`-th deletion statement raises, the run reaches no commit. -/
theorem runSweepSteps_fail (steps : List SweepStep) :
    ∀ (st : Store) (i : ℕ), i < steps.length →
    runSweepSteps steps st (some i) = none := by
  induction steps with
  | nil =>
    intro st i hi
    simp at hi
  | cons f rest ih =>
    intro st i hi
    cases i with
    | zero => rfl
    | succ n =>
      have hn : n < rest.length := by
        simpa using hi
      have h := ih (f st).1 n hn
      simp only [runSweepSteps, h]

/-- Sanity check: with no failure the transactional runner computes
exactly `cleanup_old_data`. -/
theorem cleanup_run_none_eq (st : Store) (now max_age maxPer : ℤ) :
    cleanup_old_data_run st now max_age maxPer none
      = cleanup_old_data st now max_age maxPer := by
  unfold cleanup_old_data_run cleanup_old_data sweepSteps
  by_cases h : 0 < maxPer <;>
    simp [h, runSweepSteps]

/-- C10.  If any deletion statement of the retention sweep raises, the
`except` clause returns the empty count dict and, since `conn.commit()`
was never reached, closing the connection rolls the transaction back:
the caller observes the original store, with both tables unchanged. -/
theorem sweep_failure_rolls_back (st : Store) (now max_age maxPer : ℤ) (i : ℕ)
    (hi : i < (sweepSteps now max_age maxPer).length) :
    cleanup_old_data_run st now max_age maxPer (some i) = (st, []) := by
  unfold cleanup_old_data_run
  rw [runSweepSteps_fail _ st i hi]

/-- Witness for C10: a failure in the second deletion statement (the
per-symbol excess delete) leaves `agedStore` untouched and reports no
deleted counts. -/
theorem sweep_failure_rolls_back_witness :
    cleanup_old_data_run agedStore 100 0 5 (some 1) = (agedStore, []) :=
  sweep_failure_rolls_back agedStore 100 0 5 1 (by decide)

/-- A tradable USDT perpetual contract entry. -/
def goodExSymbol : ExSymbol :=
  ⟨"BTCUSDT", "PERPETUAL", "USDT", "TRADING"⟩

/-- A ticker entry clearing the liquidity threshold. -/
def goodTicker : Ticker24 :=
  ⟨"BTCUSDT", 1000000⟩

/-- C8, exhibit of the code bug.  A connection-close event while the
collector is running (here with reconnect counter 0 and one past
selector call and subscription) increments the reconnect counter, but
the `self.start()` call inside `on_close` returns immediately at its
`if self.running: return` guard — `running` is still `True` — so the
universe is not re-derived and no new subscription is opened, even
though both fetches would succeed.  The spec's "resume at universe
selection" never happens. -/
theorem on_close_reconnect_is_noop :
    on_close_step (Except.ok [goodExSymbol]) (Except.ok [goodTicker])
        ⟨true, 0, ["BTCUSDT"], 1, 1⟩
      = ⟨true, 1, ["BTCUSDT"], 1, 1⟩ := by
  decide

/-- The part of C8 that does hold: `on_close` never drives the reconnect
counter past `max_reconnects`, and once the bound is reached a close
event changes nothing. -/
theorem reconnect_count_bounded (fe : Except String (List ExSymbol))
    (ft : Except String (List Ticker24)) (s : CollState)
    (h : s.reconnect_count ≤ max_reconnects) :
    (on_close_step fe ft s).reconnect_count ≤ max_reconnects
    ∧ (s.reconnect_count = max_reconnects → on_close_step fe ft s = s) := by
  constructor
  · unfold on_close_step
    by_cases hc : s.running = true ∧ s.reconnect_count < max_reconnects
    · rw [if_pos hc]
      unfold start_step
      dsimp only
      rw [hc.1]
      rw [if_pos rfl]
      dsimp only
      have := hc.2
      omega
    · rw [if_neg hc]
      exact h
  · intro hmax
    unfold on_close_step
    rw [if_neg]
    intro hc
    omega

/-- Witness for the bounded-counter part of C8's model: at the cap, a
close event is ignored. -/
theorem reconnect_count_bounded_witness :
    (on_close_step (Except.ok [goodExSymbol]) (Except.ok [goodTicker])
        ⟨true, 10, ["BTCUSDT"], 1, 1⟩).reconnect_count ≤ max_reconnects
    ∧ ((⟨true, 10, ["BTCUSDT"], 1, 1⟩ : CollState).reconnect_count = max_reconnects →
        on_close_step (Except.ok [goodExSymbol]) (Except.ok [goodTicker])
          ⟨true, 10, ["BTCUSDT"], 1, 1⟩ = ⟨true, 10, ["BTCUSDT"], 1, 1⟩) :=
  reconnect_count_bounded (Except.ok [goodExSymbol]) (Except.ok [goodTicker])
    ⟨true, 10, ["BTCUSDT"], 1, 1⟩ (by decide)

/-- Counterexample for C9 as stated: when the contract-metadata fetch
fails, `get_active_symbols` has no handler — `raise_for_status()`
propagates the exception to its caller — so the caller receives the
error, not an empty symbol list. -/
theorem selector_failure_raises :
    get_active_symbols (Except.error ("ConnectionError")) (Except.ok [])
      = Except.error ("ConnectionError")
    ∧ get_active_symbols (Except.error ("ConnectionError")) (Except.ok [])
      ≠ Except.ok [] := by
  constructor
  · rfl
  · exact fun h => Except.noConfusion h

/-- C9, amended.  A failed metadata or ticker fetch makes
`get_active_symbols` raise to its caller (it never yields an empty list
on failure); the caller is `start`, whose `except` clause catches the
exception, logs, and sets `running = False` — so the start attempt ends
without crashing the process and without opening a subscription. -/
theorem selector_failure_contained (s : CollState) (e : String)
    (ft : Except String (List Ticker24))
    (l : List ExSymbol) (hs : s.running = false) :
    get_active_symbols (Except.error e) ft = Except.error e
    ∧ get_active_symbols (Except.ok l) (Except.error e) = Except.error e
    ∧ start_step (Except.error e) ft s
        = { s with running := false, selector_calls := s.selector_calls + 1 }
    ∧ (start_step (Except.ok l) (Except.error e) s).running = false
    ∧ (start_step (Except.ok l) (Except.error e) s).connect_attempts
        = s.connect_attempts := by
  refine ⟨rfl, rfl, ?_, ?_, ?_⟩
  · unfold start_step
    rw [hs]
    rw [if_neg (by simp)]
    rfl
  · unfold start_step
    rw [hs]
    rw [if_neg (by simp)]
    rfl
  · unfold start_step
    rw [hs]
    rw [if_neg (by simp)]
    rfl

/-- Witness for C9's amended statement, at an idle collector state. -/
theorem selector_failure_contained_witness :
    get_active_symbols (Except.error ("timeout")) (Except.ok [goodTicker])
      = Except.error ("timeout")
    ∧ get_active_symbols (Except.ok [goodExSymbol]) (Except.error ("timeout"))
      = Except.error ("timeout")
    ∧ start_step (Except.error ("timeout")) (Except.ok [goodTicker])
        ⟨false, 0, [], 0, 0⟩
      = ⟨false, 0, [], 1, 0⟩
    ∧ (start_step (Except.ok [goodExSymbol]) (Except.error ("timeout"))
        ⟨false, 0, [], 0, 0⟩).running = false
    ∧ (start_step (Except.ok [goodExSymbol]) (Except.error ("timeout"))
        ⟨false, 0, [], 0, 0⟩).connect_attempts
      = (⟨false, 0, [], 0, 0⟩ : CollState).connect_attempts :=
  selector_failure_contained ⟨false, 0, [], 0, 0⟩ ("timeout")
    (Except.ok [goodTicker]) [goodExSymbol] rfl

/-- Standard deviations are square roots, hence non-negative. -/
theorem popStd_nonneg (hist : List ℚ) : 0 ≤ popStd hist := by
  unfold popStd
  exact Real.sqrt_nonneg _

/-- The z-score formula on the non-degenerate branch. -/
theorem zscoreOf_pos_std (cur : ℚ) (hist : List ℚ) (h : popStd hist ≠ 0) :
    zscoreOf cur hist
      = (((cur : ℚ) : ℝ) - ((listMean hist : ℚ) : ℝ)) / popStd hist := by
  unfold zscoreOf
  rw [if_pos (lt_of_le_of_ne (popStd_nonneg hist) (Ne.symm h))]

/-- The deliberate flat-score convention: zero standard deviation gives
z-score exactly 0. -/
theorem zscoreOf_zero_std (cur : ℚ) (hist : List ℚ) (h : popStd hist = 0) :
    zscoreOf cur hist = 0 := by
  unfold zscoreOf
  rw [h]
  simp

/-- C2.  In every result `analyze_symbol_anomaly` emits: when the
population standard deviation of the absolute historical returns is
non-zero, the price z-score is `(|r_last| − mean |hist|) / std |hist|`;
when that standard deviation is zero the price z-score is exactly 0, and
likewise the volume and volatility z-scores are 0 when their own history
standard deviation is 0. -/
theorem zscore_convention (sym : String) (ks : List Kline) (qv : ℚ)
    (r : AnomalyResult) (h : analyze_symbol_anomaly sym ks qv = some r) :
    (popStd (((returnsOf (ks.map (fun k => k.close_price))).dropLast).map
        (fun x => |x|)) ≠ 0 →
      r.price_zscore
        = (((|(returnsOf (ks.map (fun k => k.close_price))).getLastD 0| : ℚ) : ℝ)
            - ((listMean (((returnsOf (ks.map (fun k => k.close_price))).dropLast).map
                (fun x => |x|)) : ℚ) : ℝ))
          / popStd (((returnsOf (ks.map (fun k => k.close_price))).dropLast).map
              (fun x => |x|)))
    ∧ (popStd (((returnsOf (ks.map (fun k => k.close_price))).dropLast).map
        (fun x => |x|)) = 0 → r.price_zscore = 0)
    ∧ (popStd ((ks.map (fun k => k.quote_volume)).dropLast) = 0 →
        r.volume_zscore = 0)
    ∧ (popStd ((trueRanges ks).dropLast) = 0 → r.volatility_zscore = 0) := by
  simp only [analyze_symbol_anomaly] at h
  split_ifs at h with h1 h2 h3
  rw [Option.some.injEq] at h
  subst h
  refine ⟨?_, ?_, ?_, ?_⟩
  · intro hstd
    exact zscoreOf_pos_std _ _ hstd
  · intro hstd
    exact zscoreOf_zero_std _ _ hstd
  · intro hstd
    exact zscoreOf_zero_std _ _ hstd
  · intro hstd
    exact zscoreOf_zero_std _ _ hstd

/-- "价格" (price) is tagged iff the price condition fired. -/
theorem mem_buildReasons_price (p v vo c : Prop)
    [Decidable p] [Decidable v] [Decidable vo] [Decidable c] :
    "价格" ∈ buildReasons p v vo c ↔ p := by
  by_cases hp : p <;> by_cases hv : v <;> by_cases hvo : vo <;> by_cases hc : c <;>
    simp [buildReasons, hp, hv, hvo, hc]

/-- "成交量" (volume) is tagged iff the volume condition fired. -/
theorem mem_buildReasons_volume (p v vo c : Prop)
    [Decidable p] [Decidable v] [Decidable vo] [Decidable c] :
    "成交量" ∈ buildReasons p v vo c ↔ v := by
  by_cases hp : p <;> by_cases hv : v <;> by_cases hvo : vo <;> by_cases hc : c <;>
    simp [buildReasons, hp, hv, hvo, hc]

/-- "波动率" (volatility) is tagged iff the volatility condition fired. -/
theorem mem_buildReasons_volatility (p v vo c : Prop)
    [Decidable p] [Decidable v] [Decidable vo] [Decidable c] :
    "波动率" ∈ buildReasons p v vo c ↔ vo := by
  by_cases hp : p <;> by_cases hv : v <;> by_cases hvo : vo <;> by_cases hc : c <;>
    simp [buildReasons, hp, hv, hvo, hc]

/-- "综合" (composite) is tagged iff nothing else fired but the
composite score cleared its threshold. -/
theorem mem_buildReasons_composite (p v vo c : Prop)
    [Decidable p] [Decidable v] [Decidable vo] [Decidable c] :
    "综合" ∈ buildReasons p v vo c ↔ (¬p ∧ ¬v ∧ ¬vo ∧ c) := by
  by_cases hp : p <;> by_cases hv : v <;> by_cases hvo : vo <;> by_cases hc : c <;>
    simp [buildReasons, hp, hv, hvo, hc]

/-- "正常" (normal) is tagged iff nothing fired at all. -/
theorem mem_buildReasons_normal (p v vo c : Prop)
    [Decidable p] [Decidable v] [Decidable vo] [Decidable c] :
    "正常" ∈ buildReasons p v vo c ↔ (¬p ∧ ¬v ∧ ¬vo ∧ ¬c) := by
  by_cases hp : p <;> by_cases hv : v <;> by_cases hvo : vo <;> by_cases hc : c <;>
    simp [buildReasons, hp, hv, hvo, hc]

/-- C3.  Classification of every emitted result: the tag set contains
"价格" (price) iff price z-score ≥ T_price or percentile ≥ T_pct;
"成交量" (volume) iff |volume z-score| ≥ T_vol; "波动率" (volatility)
iff volatility z-score ≥ T_volat; "综合" (composite) iff none of those
three fired and the composite score ≥ the composite threshold; "正常"
(normal) iff no other tag fired; and `is_anomaly` is true iff some tag
other than "正常" is present (equivalently, one of the four conditions
fired). -/
theorem classification_tags (sym : String) (ks : List Kline) (qv : ℚ)
    (r : AnomalyResult) (h : analyze_symbol_anomaly sym ks qv = some r) :
    ("价格" ∈ r.anomaly_reasons ↔
      (((PRICE_Z_THRESHOLD : ℚ) : ℝ) ≤ r.price_zscore
        ∨ PRICE_PERCENTILE ≤ r.price_percentile))
    ∧ ("成交量" ∈ r.anomaly_reasons ↔
        ((VOLUME_Z_THRESHOLD : ℚ) : ℝ) ≤ |r.volume_zscore|)
    ∧ ("波动率" ∈ r.anomaly_reasons ↔
        ((VOLATILITY_Z_THRESHOLD : ℚ) : ℝ) ≤ r.volatility_zscore)
    ∧ ("综合" ∈ r.anomaly_reasons ↔
        (¬(((PRICE_Z_THRESHOLD : ℚ) : ℝ) ≤ r.price_zscore
            ∨ PRICE_PERCENTILE ≤ r.price_percentile)
         ∧ ¬(((VOLUME_Z_THRESHOLD : ℚ) : ℝ) ≤ |r.volume_zscore|)
         ∧ ¬(((VOLATILITY_Z_THRESHOLD : ℚ) : ℝ) ≤ r.volatility_zscore)
         ∧ ((ANOMALY_SCORE_THRESHOLD : ℚ) : ℝ) ≤ r.anomaly_score))
    ∧ ("正常" ∈ r.anomaly_reasons ↔
        (¬(((PRICE_Z_THRESHOLD : ℚ) : ℝ) ≤ r.price_zscore
            ∨ PRICE_PERCENTILE ≤ r.price_percentile)
         ∧ ¬(((VOLUME_Z_THRESHOLD : ℚ) : ℝ) ≤ |r.volume_zscore|)
         ∧ ¬(((VOLATILITY_Z_THRESHOLD : ℚ) : ℝ) ≤ r.volatility_zscore)
         ∧ ¬(((ANOMALY_SCORE_THRESHOLD : ℚ) : ℝ) ≤ r.anomaly_score)))
    ∧ (r.is_anomaly = true ↔
        ((((PRICE_Z_THRESHOLD : ℚ) : ℝ) ≤ r.price_zscore
            ∨ PRICE_PERCENTILE ≤ r.price_percentile)
         ∨ ((VOLUME_Z_THRESHOLD : ℚ) : ℝ) ≤ |r.volume_zscore|
         ∨ ((VOLATILITY_Z_THRESHOLD : ℚ) : ℝ) ≤ r.volatility_zscore
         ∨ ((ANOMALY_SCORE_THRESHOLD : ℚ) : ℝ) ≤ r.anomaly_score)) := by
  simp only [analyze_symbol_anomaly] at h
  split_ifs at h with h1 h2 h3
  rw [Option.some.injEq] at h
  subst h
  dsimp only
  refine ⟨?_, ?_, ?_, ?_, ?_, ?_⟩
  · exact mem_buildReasons_price _ _ _ _
  · exact mem_buildReasons_volume _ _ _ _
  · exact mem_buildReasons_volatility _ _ _ _
  · exact mem_buildReasons_composite _ _ _ _
  · exact mem_buildReasons_normal _ _ _ _
  · exact decide_eq_true_iff

/-- Sixteen synthetic 15-minute candles: flat at 100, with a +10% jump in
the final bucket (the end-to-end price-anomaly scenario). -/
def testKlines : List Kline :=
  [sampleKline 0 100, sampleKline 900000 100, sampleKline 1800000 100,
   sampleKline 2700000 100, sampleKline 3600000 100, sampleKline 4500000 100,
   sampleKline 5400000 100, sampleKline 6300000 100, sampleKline 7200000 100,
   sampleKline 8100000 100, sampleKline 9000000 100, sampleKline 9900000 100,
   sampleKline 10800000 100, sampleKline 11700000 100, sampleKline 12600000 100,
   sampleKline 13500000 110]

/-- The return series of `testKlines`: fourteen zero returns and one +10%
return. -/
theorem returns_testKlines :
    returnsOf (testKlines.map (fun k => k.close_price))
      = [0, 0, 0, 0, 0, 0, 0, 0, 0, 0, 0, 0, 0, 0, 1/10] := by
  norm_num [returnsOf, testKlines, sampleKline]

/-- Scoring the test series produces a row (none of the three skip
conditions applies). -/
theorem analyze_testKlines_isSome :
    (analyze_symbol_anomaly ("TESTUSDT") testKlines 7).isSome := by
  simp only [analyze_symbol_anomaly, returns_testKlines]
  rw [if_neg (show ¬(testKlines.length < MIN_KLINES_REQUIRED) by decide)]
  rw [if_neg (show ¬(([0, 0, 0, 0, 0, 0, 0, 0, 0, 0, 0, 0, 0, 0,
        (1:ℚ)/10] : List ℚ).length < 5) by decide)]
  rw [if_neg (show ¬(|([0, 0, 0, 0, 0, 0, 0, 0, 0, 0, 0, 0, 0, 0,
        (1:ℚ)/10] : List ℚ).getLastD 0| < MIN_ABS_RETURN) by
      norm_num [List.getLastD_cons, MIN_ABS_RETURN, abs_of_nonneg])]
  rfl

/-- The scored row for the test series, as an equation usable as the
hypothesis of the classification and z-score theorems. -/
theorem analyze_testKlines_eq :
    analyze_symbol_anomaly ("TESTUSDT") testKlines 7
      = some ((analyze_symbol_anomaly ("TESTUSDT") testKlines 7).get
          analyze_testKlines_isSome) :=
  (Option.some_get analyze_testKlines_isSome).symm

/-- Witness for C2 at the concrete test series. -/
theorem zscore_convention_witness :
    (popStd (((returnsOf (testKlines.map (fun k => k.close_price))).dropLast).map
        (fun x => |x|)) = 0 →
      ((analyze_symbol_anomaly ("TESTUSDT") testKlines 7).get
          analyze_testKlines_isSome).price_zscore = 0)
    ∧ (popStd ((testKlines.map (fun k => k.quote_volume)).dropLast) = 0 →
      ((analyze_symbol_anomaly ("TESTUSDT") testKlines 7).get
          analyze_testKlines_isSome).volume_zscore = 0) :=
  ⟨(zscore_convention ("TESTUSDT") testKlines 7 _ analyze_testKlines_eq).2.1,
   (zscore_convention ("TESTUSDT") testKlines 7 _ analyze_testKlines_eq).2.2.1⟩

/-- Witness for C3 at the concrete test series. -/
theorem classification_tags_witness :
    "价格" ∈ ((analyze_symbol_anomaly ("TESTUSDT") testKlines 7).get
        analyze_testKlines_isSome).anomaly_reasons ↔
      (((PRICE_Z_THRESHOLD : ℚ) : ℝ)
          ≤ ((analyze_symbol_anomaly ("TESTUSDT") testKlines 7).get
              analyze_testKlines_isSome).price_zscore
        ∨ PRICE_PERCENTILE
          ≤ ((analyze_symbol_anomaly ("TESTUSDT") testKlines 7).get
              analyze_testKlines_isSome).price_percentile) :=
  (classification_tags ("TESTUSDT") testKlines 7 _ analyze_testKlines_eq).1

/-- The three skip conditions each make `analyze_symbol_anomaly` return
no row. -/
theorem analyze_skip (sym : String) (ks : List Kline) (qv : ℚ)
    (h : ks.length < MIN_KLINES_REQUIRED
       ∨ (returnsOf (ks.map (fun k => k.close_price))).length < 5
       ∨ |(returnsOf (ks.map (fun k => k.close_price))).getLastD 0|
           < MIN_ABS_RETURN) :
    analyze_symbol_anomaly sym ks qv = none := by
  simp only [analyze_symbol_anomaly]
  by_cases h1 : ks.length < MIN_KLINES_REQUIRED
  · rw [if_pos h1]
  · rw [if_neg h1]
    by_cases h2 : (returnsOf (ks.map (fun k => k.close_price))).length < 5
    · rw [if_pos h2]
    · rw [if_neg h2]
      rcases h with h | h | h
      · exact absurd h h1
      · exact absurd h h2
      · rw [if_pos h]

/-- Every emitted result carries the analysed symbol. -/
theorem analyze_symbol_eq (sym : String) (ks : List Kline) (qv : ℚ)
    (r : AnomalyResult) (h : analyze_symbol_anomaly sym ks qv = some r) :
    r.symbol = sym := by
  simp only [analyze_symbol_anomaly] at h
  split_ifs at h
  rw [Option.some.injEq] at h
  subst h
  rfl

/-- C6.  A scoring run produces no row for a symbol whose stored history
is below the 16-candle minimum window, or whose return series (from the
fetched 150-candle page) has fewer than 5 points, or whose last absolute
return is below the MIN_ABS_RETURN floor. -/
theorem scoring_run_skip_conditions (st : Store) (volumes_24h : String → ℚ)
    (sym : String)
    (h : st.klines.countP (fun r => r.symbol = sym) < MIN_KLINES_REQUIRED
       ∨ (returnsOf (((get_recent_klines st sym 150).map (fun r => r.data)).map
            (fun k => k.close_price))).length < 5
       ∨ |(returnsOf (((get_recent_klines st sym 150).map (fun r => r.data)).map
            (fun k => k.close_price))).getLastD 0| < MIN_ABS_RETURN) :
    sym ∉ (detect_run_results st volumes_24h).map (fun r => r.symbol) := by
  intro hmem
  rw [List.mem_map] at hmem
  obtain ⟨r, hr, hrsym⟩ := hmem
  unfold detect_run_results at hr
  rw [List.mem_filterMap] at hr
  obtain ⟨a, _, hfa⟩ := hr
  dsimp only at hfa
  by_cases has : a = sym
  · subst has
    have hlen : ((get_recent_klines st a 150).map (fun r => r.data)).length
        = min 150 (st.klines.countP (fun r => r.symbol = a)) := by
      rw [List.length_map, length_get_recent_klines, List.countP_eq_length_filter]
    by_cases hshort :
        ((get_recent_klines st a 150).map (fun r => r.data)).length
          < MIN_KLINES_REQUIRED
    · rw [if_pos hshort] at hfa
      exact Option.noConfusion hfa
    · rw [if_neg hshort] at hfa
      rcases h with h | h | h
      · refine hshort ?_
        rw [hlen]
        have : min 150 (st.klines.countP (fun r => r.symbol = a))
            ≤ st.klines.countP (fun r => r.symbol = a) := min_le_right _ _
        omega
      · rw [analyze_skip a _ _ (Or.inr (Or.inl h))] at hfa
        exact Option.noConfusion hfa
      · rw [analyze_skip a _ _ (Or.inr (Or.inr h))] at hfa
        exact Option.noConfusion hfa
  · by_cases hshort :
        ((get_recent_klines st a 150).map (fun r => r.data)).length
          < MIN_KLINES_REQUIRED
    · rw [if_pos hshort] at hfa
      exact Option.noConfusion hfa
    · rw [if_neg hshort] at hfa
      exact has ((analyze_symbol_eq a _ _ r hfa).symm.trans hrsym)

/-- A store holding only three SOLUSDT candles: far below the minimum
window. -/
def smallStore : Store :=
  ⟨[⟨1, "SOLUSDT", sampleKline 0 100, 10⟩,
    ⟨2, "SOLUSDT", sampleKline 900000 101, 11⟩,
    ⟨3, "SOLUSDT", sampleKline 1800000 102, 12⟩], [], 4, 1⟩

/-- Witness for C6: with three stored candles, no scoring run emits a row
for SOLUSDT. -/
theorem scoring_run_skip_conditions_witness :
    "SOLUSDT" ∉ (detect_run_results smallStore (fun _ => 0)).map
      (fun r => r.symbol) :=
  scoring_run_skip_conditions smallStore (fun _ => 0) ("SOLUSDT")
    (Or.inl (by decide))

/-- The absolute historical returns of the test series: fourteen zeros. -/
theorem hist_abs_testKlines :
    ((returnsOf (testKlines.map (fun k => k.close_price))).dropLast).map
      (fun x => |x|)
      = [0, 0, 0, 0, 0, 0, 0, 0, 0, 0, 0, 0, 0, 0] := by
  rw [returns_testKlines]
  norm_num

/-- The historical quote volumes of the test series: fifteen ones. -/
theorem hist_volumes_testKlines :
    (testKlines.map (fun k => k.quote_volume)).dropLast
      = [1, 1, 1, 1, 1, 1, 1, 1, 1, 1, 1, 1, 1, 1, 1] := by
  norm_num [testKlines, sampleKline]

/-- The true ranges of the flat-OHLC test series: sixteen zeros. -/
theorem trueRanges_testKlines :
    trueRanges testKlines
      = [0, 0, 0, 0, 0, 0, 0, 0, 0, 0, 0, 0, 0, 0, 0, 0] := by
  norm_num [trueRanges, testKlines, sampleKline]

/-- A constant history has zero population standard deviation. -/
theorem popStd_zeros14 :
    popStd [0, 0, 0, 0, 0, 0, 0, 0, 0, 0, 0, 0, 0, 0] = 0 := by
  unfold popStd
  rw [show popVar [0, 0, 0, 0, 0, 0, 0, 0, 0, 0, 0, 0, 0, 0] = 0 by
    norm_num [popVar, listMean]]
  simp

/-- A constant history has zero population standard deviation. -/
theorem popStd_ones15 :
    popStd [1, 1, 1, 1, 1, 1, 1, 1, 1, 1, 1, 1, 1, 1, 1] = 0 := by
  unfold popStd
  rw [show popVar [1, 1, 1, 1, 1, 1, 1, 1, 1, 1, 1, 1, 1, 1, 1] = 0 by
    norm_num [popVar, listMean]]
  simp

/-- A constant history has zero population standard deviation. -/
theorem popStd_zeros15 :
    popStd [0, 0, 0, 0, 0, 0, 0, 0, 0, 0, 0, 0, 0, 0, 0] = 0 := by
  unfold popStd
  rw [show popVar [0, 0, 0, 0, 0, 0, 0, 0, 0, 0, 0, 0, 0, 0, 0] = 0 by
    norm_num [popVar, listMean]]
  simp

/-- End-to-end evaluation of the scorer on the +10% test series (the
spec's price-anomaly scenario): the emitted row has z-scores 0 (all
three histories are constant), percentile 100, price score 0.8,
composite score 0.32, the single tag "价格", and `is_anomaly = true`. -/
theorem analyze_testKlines_value :
    analyze_symbol_anomaly ("TESTUSDT") testKlines 7 = some
      { symbol := "TESTUSDT"
        timestamp := 13500
        interval_type := "15m"
        cur_return := 1/10
        cur_abs_return := 1/10
        close_price := 110
        cur_volume := 1
        cur_volatility := 0
        price_zscore := 0
        price_percentile := 100
        volume_zscore := 0
        volatility_zscore := 0
        anomaly_score := (8/25 : ℝ)
        price_score := (4/5 : ℝ)
        volume_score := 0
        volatility_score := 0
        anomaly_reasons := ["价格"]
        quote_volume_24h := 7
        is_anomaly := true } := by
  have hcur : ([0, 0, 0, 0, 0, 0, 0, 0, 0, 0, 0, 0, 0, 0,
      (1:ℚ)/10] : List ℚ).getLastD 0 = 1/10 := by
    norm_num [List.getLastD_cons]
  have habs : (([0, 0, 0, 0, 0, 0, 0, 0, 0, 0, 0, 0, 0, 0,
      (1:ℚ)/10] : List ℚ).dropLast).map (fun x => |x|)
      = [0, 0, 0, 0, 0, 0, 0, 0, 0, 0, 0, 0, 0, 0] := by
    norm_num
  have htrd : (([0, 0, 0, 0, 0, 0, 0, 0, 0, 0, 0, 0, 0, 0, 0,
      0] : List ℚ)).dropLast
      = [0, 0, 0, 0, 0, 0, 0, 0, 0, 0, 0, 0, 0, 0, 0] := by
    norm_num
  simp only [analyze_symbol_anomaly, returns_testKlines]
  rw [if_neg (show ¬(testKlines.length < MIN_KLINES_REQUIRED) by decide)]
  rw [if_neg (show ¬(([0, 0, 0, 0, 0, 0, 0, 0, 0, 0, 0, 0, 0, 0,
      (1:ℚ)/10] : List ℚ).length < 5) by decide)]
  rw [if_neg (show ¬(|([0, 0, 0, 0, 0, 0, 0, 0, 0, 0, 0, 0, 0, 0,
      (1:ℚ)/10] : List ℚ).getLastD 0| < MIN_ABS_RETURN) by
    norm_num [List.getLastD_cons, MIN_ABS_RETURN, abs_of_nonneg])]
  rw [habs, hist_volumes_testKlines, trueRanges_testKlines, htrd]
  rw [zscoreOf_zero_std _ _ popStd_zeros14,
    zscoreOf_zero_std _ _ popStd_ones15,
    zscoreOf_zero_std _ _ popStd_zeros15]
  rw [hcur]
  simp only [Option.some.injEq, AnomalyResult.mk.injEq]
  norm_num [testKlines, sampleKline, List.getLastD_cons, buildReasons,
    PRICE_Z_THRESHOLD, PRICE_PERCENTILE, VOLUME_Z_THRESHOLD,
    VOLATILITY_Z_THRESHOLD, ANOMALY_SCORE_THRESHOLD, WEIGHT_PRICE,
    WEIGHT_VOLUME, WEIGHT_VOLATILITY, MIN_KLINES_REQUIRED,
    abs_of_nonneg, max_def, Int.fdiv]
